import Mathlib

/-!
Verification of the ingress request authentication and delegation-chain
validator of this repository, together with the HTTP call endpoint in
`rs/http_endpoints/public/src/call.rs` and the message-id computation
exercised by `check_request_id`.

The validator implementation (`rs/validator/ingress_message/src/internal`)
is present in the repository only through its test suite
(`src/internal/tests.rs`); the validation algorithm itself is modelled
from the specification (sections 4.1, 4.2, 7), with the behaviour pinned
by the repository's own tests taken as authoritative where the two
disagree (notably the handling of an empty `targets` list, see
`should_fail_when_targets_empty`).
-/

namespace IngressValidator

/-- Public keys are DER-encoded byte blobs in the code; the validator only
compares them for equality and hands them to injected capabilities, so they
are modelled as an opaque value with decidable equality. -/
abbrev PublicKey := Nat

/-- Signatures are opaque bytes, only ever passed to the injected verifiers. -/
abbrev Signature := Nat

/-- Principals are opaque identity values compared by equality. -/
abbrev Principal := Nat

/-- Canister ids are opaque identifiers compared by equality. -/
abbrev CanisterId := Nat

/-- Times are nanoseconds since the unix epoch (`u64` in the code). -/
abbrev Time := Nat

/-- The distinguished anonymous principal (`PrincipalId::new_anonymous()`,
the single byte `0x04`). -/
def anonymousPrincipal : Principal := 4

/-- Modelled from the spec: maximum delegation chain length, a fixed
deployment constant (tests.rs pins it to 20, `MAXIMUM_NUMBER_OF_DELEGATIONS`). -/
def MAXIMUM_NUMBER_OF_DELEGATIONS : Nat := 20

/-- Modelled from the spec: maximum number of target entries in a single
delegation, counting repeats (tests.rs pins it to 1000,
`MAXIMUM_NUMBER_OF_TARGETS`). -/
def MAXIMUM_NUMBER_OF_TARGETS : Nat := 1000

/-- `ic_constants::MAX_INGRESS_TTL`: 5 minutes, in nanoseconds. -/
def MAX_INGRESS_TTL : Nat := 300000000000

/-- `ic_constants::PERMITTED_DRIFT_AT_VALIDATOR`: 30 seconds, in nanoseconds. -/
def PERMITTED_DRIFT_AT_VALIDATOR : Nat := 30000000000

/-- Modelled from the spec (section 3): a delegation statement
`{delegated public key, expiration, optional targets}`; `targets = none`
means unrestricted, `some l` restricts invocation to the listed canister
ids (duplicates permitted, bounded in count). -/
structure Delegation where
  pubkey : PublicKey
  expiration : Time
  targets : Option (List CanisterId)
  deriving DecidableEq, Repr

/-- Modelled from the spec (section 3): a delegation together with the
signature of its signer-of-record. -/
structure SignedDelegation where
  delegation : Delegation
  signature : Signature
  deriving DecidableEq, Repr

/-- Modelled from the spec (sections 3, 9): the authentication scheme as a
closed tagged union constructed at the boundary. `signed` carries the
envelope's `sender_pubkey` (the root key of the chain), `sender_sig`
(authenticating the request content under the terminal key) and the
optional `sender_delegation` chain; `none` is the direct scheme, `some`
the delegated one. -/
inductive Auth where
  | anonymous : Auth
  | signed (senderPubkey : PublicKey) (senderSig : Signature)
      (delegations : Option (List SignedDelegation)) : Auth
  deriving DecidableEq, Repr

/-- The three request kinds the validator is instantiated at
(update call, query, read-state). -/
inductive ReqKind where
  | updateCall : ReqKind
  | query : ReqKind
  | readState : ReqKind
  deriving DecidableEq, Repr

/-- Modelled from the spec (section 3): a request as seen by the validator:
opaque content reduced to its request kind, optional target canister id
(read-state requests carry none), signable bytes (`reqId`), plus sender,
ingress expiry and the authentication scheme. -/
structure Request where
  kind : ReqKind
  canisterId : Option CanisterId
  sender : Principal
  ingressExpiry : Time
  auth : Auth
  reqId : Nat
  deriving DecidableEq, Repr

/-- Modelled from the spec (section 7): the sub-causes carried by
`InvalidDelegation` / `InvalidSignature`. Signature-verification causes are
collapsed into one constructor since the injected verifiers are opaque. -/
inductive AuthError where
  | invalidSig : AuthError
  | chainTooLong : AuthError
  | delegationContainsCycles (publicKey : PublicKey) : AuthError
  | delegationTargetError : AuthError
  deriving DecidableEq, Repr

/-- Modelled from the spec (section 7): the error taxonomy of
`validate_request`. -/
inductive RequestValidationError where
  | invalidIngressExpiry : RequestValidationError
  | missingSignature (sender : Principal) : RequestValidationError
  | anonymousSignatureNotAllowed : RequestValidationError
  | userIdDoesNotMatchPublicKey (sender : Principal) (pubkey : PublicKey) :
      RequestValidationError
  | invalidSignature (cause : AuthError) : RequestValidationError
  | invalidDelegation (cause : AuthError) : RequestValidationError
  | invalidDelegationExpiry (expiry : Time) : RequestValidationError
  | canisterNotInDelegationTargets (canisterId : CanisterId) : RequestValidationError
  deriving DecidableEq, Repr

/-- Modelled from the spec (section 6): the injected capabilities: the time
source, the principal deriver, and the signature verifiers (basic and
canister-signature verification, with the root of trust already folded in,
are collapsed into opaque verification oracles). -/
structure Env where
  now : Time
  derive : PublicKey → Principal
  verifyDelegation : PublicKey → SignedDelegation → Bool
  verifyRequestSig : PublicKey → Signature → Nat → Bool

/-- Modelled from the spec (section 4.2): the resolved target scope of a
chain: either unrestricted or a set of canister ids. -/
inductive Scope where
  | all : Scope
  | ids (l : List CanisterId) : Scope
  deriving DecidableEq, Repr

/-- Scope membership. -/
def Scope.containsId : Scope → CanisterId → Bool
  | .all, _ => true
  | .ids l, c => decide (c ∈ l)

/-- Intersection of a scope with one delegation's target list. -/
def Scope.inter : Scope → List CanisterId → Scope
  | .all, l => .ids l
  | .ids l1, l2 => .ids (l1.filter (fun a => decide (a ∈ l2)))

/-- Modelled from the spec (section 4.2, chaining and signatures rule):
verify each chain element's signature under the key that precedes it,
starting from the root key. -/
def checkSigs (env : Env) : PublicKey → List SignedDelegation → Bool
  | _, [] => true
  | signer, sd :: rest =>
      env.verifyDelegation signer sd && checkSigs env sd.delegation.pubkey rest

/-- Modelled from the spec (section 4.2, expiry rule): the expiration of
the first chain element that is strictly in the past, if any. -/
def firstExpired (now : Time) : List SignedDelegation → Option Time
  | [] => none
  | sd :: rest =>
      if sd.delegation.expiration < now then some sd.delegation.expiration
      else firstExpired now rest

/-- Modelled from the spec (section 4.2, cycle freedom rule, and design
note on cycle detection): linear scan with a set of seen keys; returns the
first key that reoccurs anywhere earlier in the sequence. -/
def findCycle (seen : List PublicKey) : List PublicKey → Option PublicKey
  | [] => none
  | k :: ks => if k ∈ seen then some k else findCycle (k :: seen) ks

/-- Modelled from the spec (section 4.2, target scope rule) with the
repository's tests as authority on the empty list: each present target list
may hold at most `MAXIMUM_NUMBER_OF_TARGETS` entries counting repeats, else
the target error; an empty list is not a parse error (the spec's
non-emptiness clause contradicts `should_fail_when_targets_empty`, which
expects the empty list to yield an empty resolved scope and a
`CanisterNotInDelegationTargets` rejection downstream). The resolved scope
is the intersection across all delegations that specify a restriction. -/
def resolveScope : Scope → List SignedDelegation → Except Unit Scope
  | s, [] => .ok s
  | s, sd :: rest =>
      match sd.delegation.targets with
      | none => resolveScope s rest
      | some l =>
          if MAXIMUM_NUMBER_OF_TARGETS < l.length then .error ()
          else resolveScope (s.inter l) rest

/-- The ordered key sequence of a rooted chain:
`[root_key, chain[0].delegated_key, ..., chain[n-1].delegated_key]`. -/
def chainKeys (rootKey : PublicKey) (chain : List SignedDelegation) : List PublicKey :=
  rootKey :: chain.map (fun sd => sd.delegation.pubkey)

/-- Modelled from the spec (section 4.2): the delegation chain validator,
rules applied in the spec's order: length bound, chaining and signatures,
expiry, cycle freedom, target scope. -/
def validateChain (env : Env) (rootKey : PublicKey)
    (chain : List SignedDelegation) : Except RequestValidationError Scope :=
  if MAXIMUM_NUMBER_OF_DELEGATIONS < chain.length then
    .error (.invalidDelegation .chainTooLong)
  else if checkSigs env rootKey chain then
    match firstExpired env.now chain with
    | some t => .error (.invalidDelegationExpiry t)
    | none =>
        match findCycle [] (chainKeys rootKey chain) with
        | some k => .error (.invalidDelegation (.delegationContainsCycles k))
        | none =>
            match resolveScope .all chain with
            | .error _ => .error (.invalidDelegation .delegationTargetError)
            | .ok s => .ok s
  else .error (.invalidDelegation .invalidSig)

/-- The terminal key of a chain: the last delegated key, or the root key
for an empty (or absent) chain. -/
def terminalKey (rootKey : PublicKey) (chain : List SignedDelegation) : PublicKey :=
  match chain.getLast? with
  | some sd => sd.delegation.pubkey
  | none => rootKey

/-- Verification of the terminal signature over the request's signable
bytes under the terminal key of the chain, surfaced as `InvalidSignature`. -/
def checkTerminalSig (env : Env) (pk : PublicKey) (chain : List SignedDelegation)
    (sig : Signature) (reqId : Nat) : Except RequestValidationError Unit :=
  if env.verifyRequestSig (terminalKey pk chain) sig reqId then .ok ()
  else .error (.invalidSignature .invalidSig)

/-- Modelled from the spec (section 4.1, direct and delegated cases):
delegation-chain validation rooted at the envelope's public key, the
root-key/sender identity check, the target-scope check against the
request's canister id (read-state requests carry none), and finally the
terminal signature verification. -/
def checkSignedScheme (env : Env) (r : Request) (pk : PublicKey) (sig : Signature)
    (dels : Option (List SignedDelegation)) : Except RequestValidationError Unit :=
  let chain := dels.getD []
  match validateChain env pk chain with
  | .error e => .error e
  | .ok scope =>
      if env.derive pk ≠ r.sender then
        .error (.userIdDoesNotMatchPublicKey r.sender pk)
      else
        match r.canisterId with
        | some cid =>
            if scope.containsId cid then checkTerminalSig env pk chain sig r.reqId
            else .error (.canisterNotInDelegationTargets cid)
        | none => checkTerminalSig env pk chain sig r.reqId

/-- Modelled from the spec (section 4.1, step 2, scheme dispatch):
anonymous requests are accepted exactly for the anonymous principal;
signature material attached to an anonymous sender claim is rejected
before the identity check. -/
def checkScheme (env : Env) (r : Request) : Except RequestValidationError Unit :=
  match r.auth with
  | .anonymous =>
      if r.sender = anonymousPrincipal then .ok ()
      else .error (.missingSignature r.sender)
  | .signed pk sig dels =>
      if r.sender = anonymousPrincipal then .error .anonymousSignatureNotAllowed
      else checkSignedScheme env r pk sig dels

/-- Modelled from the spec (section 4.1): the top-level request validator:
ingress-expiry bound check (both bounds closed) followed by scheme
dispatch. -/
def validate_request (env : Env) (r : Request) :
    Except RequestValidationError Unit :=
  if r.ingressExpiry < env.now ∨
      env.now + MAX_INGRESS_TTL + PERMITTED_DRIFT_AT_VALIDATOR < r.ingressExpiry then
    .error .invalidIngressExpiry
  else checkScheme env r

/-- The sentinel maximum timestamp (`u64::MAX` nanoseconds), denoting a
delegation that never expires. -/
def U64_MAX : Nat := 18446744073709551615

/-- A concrete capability environment used to instantiate the theorems
below on executable inputs: fixed time 1000, principal derivation `k + 100`
and verification oracles that accept. -/
def envW : Env := ⟨1000, fun k => k + 100, fun _ _ => true, fun _ _ _ => true⟩

/-- A request whose single delegation names the root key again
(self-delegation), as in `should_fail_when_delegations_self_signed`. -/
def reqC1 : Request :=
  ⟨.updateCall, some 42, 101, 1000, .signed 1 7 (some [⟨⟨1, 1000, none⟩, 0⟩]), 9⟩

/-- An unsigned request from the anonymous principal. -/
def reqAnon : Request := ⟨.updateCall, some 42, anonymousPrincipal, 1000, .anonymous, 9⟩

/-- A request whose delegation repeats the requested target many times,
as in `should_accept_repeating_target`. -/
def reqC3 : Request :=
  ⟨.updateCall, some 42, 101, 1000,
    .signed 1 7 (some [⟨⟨2, 1000, some [41, 42, 42, 42, 43, 42]⟩, 0⟩]), 9⟩

/-- A delegation chain of the maximal accepted length 20, with distinct
keys, no targets and unexpired delegations. -/
def chainC4 : List SignedDelegation :=
  (List.range 20).map (fun i => ⟨⟨i + 2, 1000, none⟩, 0⟩)

/-- A delegation chain of length 21, just above the bound. -/
def chainC4long : List SignedDelegation :=
  (List.range 21).map (fun i => ⟨⟨i + 2, 1000, none⟩, 0⟩)

/-- A request carrying the maximal-length chain. -/
def reqC4 : Request := ⟨.updateCall, some 42, 101, 1000, .signed 1 7 (some chainC4), 9⟩

/-- A request carrying the 21-element chain. -/
def reqC4long : Request :=
  ⟨.updateCall, some 42, 101, 1000, .signed 1 7 (some chainC4long), 9⟩

/-- A request whose single delegation carries an empty `targets` list, as
in `should_fail_when_targets_empty`. -/
def reqC5 : Request :=
  ⟨.updateCall, some 42, 101, 1000, .signed 1 7 (some [⟨⟨2, 1000, some []⟩, 0⟩]), 9⟩

/-- A request whose single delegation carries 1001 identical target
entries, as in `should_fail_when_too_many_same_targets_in_delegation`. -/
def reqC5big : Request :=
  ⟨.updateCall, some 0, 101, 1000,
    .signed 1 7 (some [⟨⟨2, 1000, some (List.replicate 1001 0)⟩, 0⟩]), 9⟩

end IngressValidator

namespace MessageId

/-- The body of an update call inside the request envelope
(`HttpCanisterUpdate` in `rs/http_endpoints/public/src/call.rs` tests):
blobs are byte lists. -/
structure HttpCanisterUpdate where
  canister_id : List Nat
  method_name : List Nat
  arg : List Nat
  nonce : Option (List Nat)
  sender : List Nat
  ingress_expiry : Nat
  deriving DecidableEq, Repr

/-- The request envelope (`HttpRequestEnvelope<HttpCallContent>`): the
content plus the optional authentication blobs `sender_sig`,
`sender_pubkey` and `sender_delegation`. -/
structure HttpRequestEnvelope where
  content : HttpCanisterUpdate
  sender_sig : Option (List Nat)
  sender_pubkey : Option (List Nat)
  sender_delegation : Option (List (List Nat))
  deriving DecidableEq, Repr

/-- Modelled from the spec: the request-id hashing scheme itself is an
external wire-format contract (spec section 9, open question) and
`SignedIngress::id` is not under `src/`; what `check_request_id` in
`call.rs` pins is that the message id is computed from the envelope's
`content` field alone, never from the authentication blobs. The hash over
the content is therefore an arbitrary injected function. -/
def messageId (hash : HttpCanisterUpdate → Nat) (e : HttpRequestEnvelope) : Nat :=
  hash e.content

/-- The first envelope built by `check_request_id` (call.rs:323): empty
signature and public-key blobs attached. -/
def request1 : HttpRequestEnvelope :=
  ⟨⟨List.replicate 8 42, [], [], none, [4], 1699000000000⟩, some [], some [], none⟩

/-- The second envelope built by `check_request_id` (call.rs:340): the
same content, with nonempty signature and public-key blobs attached. -/
def request2 : HttpRequestEnvelope :=
  ⟨⟨List.replicate 8 42, [], [], none, [4], 1699000000000⟩,
    some [121, 101, 115], some [121, 101, 115, 33], none⟩

end MessageId

namespace CallEndpoint

/-- The fields of a parsed `SignedIngress` message that
`CallService::call` inspects before handing the message on: the canister
id named inside the message content and the message's byte size. -/
structure SignedIngressMsg where
  canisterId : Nat
  countBytes : Nat
  deriving DecidableEq, Repr

/-- The ingress registry settings fetched by `get_registry_data`. -/
structure IngressSettings where
  maxIngressBytesPerMessage : Nat
  deriving DecidableEq, Repr

def STATUS_BAD_REQUEST : Nat := 400

def STATUS_PAYLOAD_TOO_LARGE : Nat := 413

def STATUS_TOO_MANY_REQUESTS : Nat := 429

def STATUS_ACCEPTED : Nat := 202

/-- Result of handing the message to the ingress ingestion service
(`ingress_sender.call`). -/
inductive SendResult where
  | accepted : SendResult
  | overloaded : SendResult
  deriving DecidableEq, Repr

/-- Outcome of one `CallService::call` invocation: the HTTP status of the
response, whether `validate_signed_ingress` was ever invoked, and whether
the message was forwarded to the ingress sender. -/
structure Outcome where
  status : Nat
  validatorInvoked : Bool
  forwarded : Bool
  deriving DecidableEq, Repr

/-- `CallService::call` (call.rs:147-291), with its effectful
collaborators passed in as values: the body-parse result, the effective
canister id extracted from the URL (`Except` carrying the error
response's status), the registry lookup result, the signature-validation
and ingress-filter verdicts (`Except` carrying the rejection status), and
the ingress sender's answer. The steps occur in the source's order:
parse, effective-canister-id extraction, the canister-id consistency
check against `ic_00` and the URL, registry data, size bound, signature
validation, ingress filter, forwarding. -/
def callService (ic00 : Nat)
    (parsed : Option SignedIngressMsg)
    (effective : Except Nat Nat)
    (registry : Except Nat IngressSettings)
    (validate : SignedIngressMsg → Except Nat Unit)
    (filter : SignedIngressMsg → Except Nat Unit)
    (send : SendResult) : Outcome :=
  match parsed with
  | none => ⟨STATUS_BAD_REQUEST, false, false⟩
  | some msg =>
      match effective with
      | .error s => ⟨s, false, false⟩
      | .ok effectiveCanisterId =>
          if msg.canisterId ≠ ic00 ∧ msg.canisterId ≠ effectiveCanisterId then
            ⟨STATUS_BAD_REQUEST, false, false⟩
          else
            match registry with
            | .error s => ⟨s, false, false⟩
            | .ok settings =>
                if settings.maxIngressBytesPerMessage < msg.countBytes then
                  ⟨STATUS_PAYLOAD_TOO_LARGE, false, false⟩
                else
                  match validate msg with
                  | .error s => ⟨s, true, false⟩
                  | .ok _ =>
                      match filter msg with
                      | .error s => ⟨s, true, false⟩
                      | .ok _ =>
                          match send with
                          | .overloaded => ⟨STATUS_TOO_MANY_REQUESTS, true, false⟩
                          | .accepted => ⟨STATUS_ACCEPTED, true, true⟩

end CallEndpoint

namespace IngressValidator

theorem firstExpired_eq_none {now : Time} {l : List SignedDelegation} :
    firstExpired now l = none ↔ ∀ sd ∈ l, ¬ sd.delegation.expiration < now := by
  induction l with
  | nil => simp [firstExpired]
  | cons sd rest ih =>
      simp only [firstExpired, List.mem_cons]
      split
      · constructor
        · intro h; cases h
        · intro h; exact absurd ‹sd.delegation.expiration < now› (h sd (Or.inl rfl))
      · rw [ih]
        constructor
        · rintro h x (rfl | hx)
          · assumption
          · exact h x hx
        · intro h x hx; exact h x (Or.inr hx)

theorem findCycle_eq_none {l : List PublicKey} :
    ∀ {seen : List PublicKey},
      findCycle seen l = none ↔ (l.Nodup ∧ ∀ a ∈ l, a ∉ seen) := by
  induction l with
  | nil => intro seen; simp [findCycle]
  | cons k ks ih =>
      intro seen
      simp only [findCycle]
      split
      · constructor
        · intro h; cases h
        · rintro ⟨_, h2⟩; exact absurd ‹k ∈ seen› (h2 k (List.mem_cons_self k ks))
      · rw [ih]
        simp only [List.nodup_cons, List.mem_cons]
        constructor
        · rintro ⟨hnd, hmem⟩
          refine ⟨⟨fun hk => (hmem k hk (Or.inl rfl)), hnd⟩, ?_⟩
          rintro a (rfl | ha)
          · assumption
          · intro hs; exact hmem a ha (Or.inr hs)
        · rintro ⟨⟨hknotin, hnd⟩, hmem⟩
          refine ⟨hnd, fun a ha => ?_⟩
          rintro (rfl | hs)
          · exact hknotin ha
          · exact hmem a (Or.inr ha) hs

theorem findCycle_eq_some {l : List PublicKey} :
    ∀ {seen : List PublicKey} {k : PublicKey}, findCycle seen l = some k →
      ∃ l1 l2, l = l1 ++ k :: l2 ∧ (k ∈ seen ∨ k ∈ l1) ∧ l1.Nodup ∧
        ∀ a ∈ l1, a ∉ seen := by
  induction l with
  | nil => intro seen k h; cases h
  | cons x xs ih =>
      intro seen k h
      by_cases hx : x ∈ seen
      · rw [findCycle, if_pos hx] at h
        obtain rfl := Option.some.inj h
        exact ⟨[], xs, rfl, Or.inl hx, List.nodup_nil, by simp⟩
      · rw [findCycle, if_neg hx] at h
        obtain ⟨l1, l2, heq, hk, hnd, hnotin⟩ := ih h
        refine ⟨x :: l1, l2, by rw [heq, List.cons_append], ?_, ?_, ?_⟩
        · rcases hk with hks | hl1
          · rcases List.mem_cons.mp hks with rfl | hs
            · exact Or.inr (List.mem_cons_self k l1)
            · exact Or.inl hs
          · exact Or.inr (List.mem_cons_of_mem x hl1)
        · refine List.nodup_cons.mpr ⟨fun hxl1 => ?_, hnd⟩
          exact hnotin x hxl1 (List.mem_cons_self x seen)
        · rintro a ha
          rcases List.mem_cons.mp ha with rfl | ha'
          · exact hx
          · intro hs; exact hnotin a ha' (List.mem_cons_of_mem x hs)

theorem findCycle_isSome_of_not_nodup {l : List PublicKey} (h : ¬ l.Nodup) :
    ∃ k, findCycle [] l = some k := by
  cases hfc : findCycle [] l with
  | none => exact absurd (findCycle_eq_none.mp hfc).1 h
  | some k => exact ⟨k, rfl⟩

theorem containsId_inter {s : Scope} {l : List CanisterId} {c : CanisterId} :
    (s.inter l).containsId c = true ↔ s.containsId c = true ∧ c ∈ l := by
  cases s <;> simp [Scope.inter, Scope.containsId, List.mem_filter]

theorem resolveScope_ok {chain : List SignedDelegation} :
    ∀ {s0 : Scope},
      (∀ sd ∈ chain, ∀ l, sd.delegation.targets = some l →
        l.length ≤ MAXIMUM_NUMBER_OF_TARGETS) →
      ∃ s, resolveScope s0 chain = .ok s ∧
        ∀ c, s.containsId c = true ↔
          (s0.containsId c = true ∧
            ∀ sd ∈ chain, ∀ l, sd.delegation.targets = some l → c ∈ l) := by
  induction chain with
  | nil => intro s0 _; exact ⟨s0, rfl, by simp⟩
  | cons sd rest ih =>
      intro s0 hb
      cases htgt : sd.delegation.targets with
      | none =>
          obtain ⟨s, hs, hc⟩ :=
            ih (fun x hx => hb x (List.mem_cons_of_mem sd hx))
          refine ⟨s, ?_, fun c => ?_⟩
          · simp only [resolveScope, htgt]; exact hs
          · rw [hc]
            simp [List.forall_mem_cons, htgt]
      | some l =>
          have hlen : l.length ≤ MAXIMUM_NUMBER_OF_TARGETS :=
            hb sd (List.mem_cons_self sd rest) l htgt
          obtain ⟨s, hs, hc⟩ :=
            ih (fun x hx => hb x (List.mem_cons_of_mem sd hx))
          refine ⟨s, ?_, fun c => ?_⟩
          · simp only [resolveScope, htgt, if_neg (not_lt.mpr hlen)]; exact hs
          rw [hc, containsId_inter]
          simp only [List.forall_mem_cons, htgt]
          constructor
          · rintro ⟨⟨h1, h2⟩, h3⟩
            exact ⟨h1, fun l' hl' => by cases hl'; exact h2, h3⟩
          · rintro ⟨h1, h2, h3⟩
            exact ⟨⟨h1, h2 l rfl⟩, h3⟩

theorem resolveScope_error {chain : List SignedDelegation} :
    ∀ {s0 : Scope},
      (∃ sd ∈ chain, ∃ l, sd.delegation.targets = some l ∧
        MAXIMUM_NUMBER_OF_TARGETS < l.length) →
      resolveScope s0 chain = .error () := by
  induction chain with
  | nil => rintro s0 ⟨x, hx, -⟩; cases hx
  | cons sd rest ih =>
      rintro s0 ⟨x, hx, l, htgt, hlen⟩
      rcases List.mem_cons.mp hx with rfl | hx'
      · simp only [resolveScope, htgt, if_pos hlen]
      · cases h : sd.delegation.targets with
        | none =>
            simp only [resolveScope, h]
            exact ih ⟨x, hx', l, htgt, hlen⟩
        | some l' =>
            simp only [resolveScope, h]
            split
            · rfl
            · exact ih ⟨x, hx', l, htgt, hlen⟩

end IngressValidator

namespace IngressValidator

theorem validateChain_ok {env : Env} {pk : PublicKey} {chain : List SignedDelegation}
    (hlen : chain.length ≤ MAXIMUM_NUMBER_OF_DELEGATIONS)
    (hsig : checkSigs env pk chain = true)
    (hexp : ∀ sd ∈ chain, env.now ≤ sd.delegation.expiration)
    (hnd : (chainKeys pk chain).Nodup)
    (hb : ∀ sd ∈ chain, ∀ l, sd.delegation.targets = some l →
      l.length ≤ MAXIMUM_NUMBER_OF_TARGETS) :
    ∃ s, validateChain env pk chain = .ok s ∧
      ∀ c, s.containsId c = true ↔
        ∀ sd ∈ chain, ∀ l, sd.delegation.targets = some l → c ∈ l := by
  have h1 : firstExpired env.now chain = none :=
    firstExpired_eq_none.mpr (fun sd h => not_lt.mpr (hexp sd h))
  have h2 : findCycle [] (chainKeys pk chain) = none :=
    findCycle_eq_none.mpr ⟨hnd, by simp⟩
  obtain ⟨s, hs, hc⟩ := @resolveScope_ok chain .all hb
  refine ⟨s, ?_, fun c => ?_⟩
  · rw [validateChain, if_neg (not_lt.mpr hlen), if_pos hsig, h1, h2, hs]
  · rw [hc c]
    simp [Scope.containsId]

theorem validateChain_cycle {env : Env} {pk : PublicKey} {chain : List SignedDelegation}
    (hlen : chain.length ≤ MAXIMUM_NUMBER_OF_DELEGATIONS)
    (hsig : checkSigs env pk chain = true)
    (hexp : ∀ sd ∈ chain, env.now ≤ sd.delegation.expiration)
    (hnd : ¬ (chainKeys pk chain).Nodup) :
    ∃ k l1 l2, chainKeys pk chain = l1 ++ k :: l2 ∧ k ∈ l1 ∧ l1.Nodup ∧
      validateChain env pk chain =
        .error (.invalidDelegation (.delegationContainsCycles k)) := by
  have h1 : firstExpired env.now chain = none :=
    firstExpired_eq_none.mpr (fun sd h => not_lt.mpr (hexp sd h))
  obtain ⟨k, hk⟩ := findCycle_isSome_of_not_nodup hnd
  obtain ⟨l1, l2, heq, hmem, hnd1, -⟩ := findCycle_eq_some hk
  refine ⟨k, l1, l2, heq, ?_, hnd1, ?_⟩
  · rcases hmem with h | h
    · cases h
    · exact h
  · rw [validateChain, if_neg (not_lt.mpr hlen), if_pos hsig, h1, hk]

theorem validateChain_ne_invalidIngressExpiry (env : Env) (pk : PublicKey)
    (chain : List SignedDelegation) :
    ∀ e, validateChain env pk chain = .error e → e ≠ .invalidIngressExpiry := by
  intro e he
  rw [validateChain] at he
  split at he
  · cases he; simp
  split at he
  · split at he
    · cases he; simp
    · split at he
      · cases he; simp
      · split at he
        · cases he; simp
        · cases he
  · cases he; simp

theorem checkScheme_ne_invalidIngressExpiry (env : Env) (r : Request) :
    checkScheme env r ≠ .error .invalidIngressExpiry := by
  rw [checkScheme]
  split
  · split <;> simp
  · split
    · simp
    · rw [checkSignedScheme]
      intro hcontra
      split at hcontra
      · rename_i e he
        exact validateChain_ne_invalidIngressExpiry _ _ _ e he (by cases hcontra; rfl)
      · split at hcontra
        · cases hcontra
        · split at hcontra
          · split at hcontra
            · rw [checkTerminalSig] at hcontra
              split at hcontra <;> cases hcontra
            · cases hcontra
          · rw [checkTerminalSig] at hcontra
            split at hcontra <;> cases hcontra

end IngressValidator

namespace IngressValidator

theorem validate_request_eq_scopecheck {env : Env} {r : Request} {pk : PublicKey}
    {sig : Signature} {dels : Option (List SignedDelegation)} {s : Scope}
    (hauth : r.auth = .signed pk sig dels)
    (hexp : ¬ (r.ingressExpiry < env.now ∨
      env.now + MAX_INGRESS_TTL + PERMITTED_DRIFT_AT_VALIDATOR < r.ingressExpiry))
    (hanon : r.sender ≠ anonymousPrincipal)
    (hvc : validateChain env pk (dels.getD []) = .ok s)
    (hderive : env.derive pk = r.sender)
    (hterm : env.verifyRequestSig (terminalKey pk (dels.getD [])) sig r.reqId = true) :
    validate_request env r =
      match r.canisterId with
      | some cid =>
          if s.containsId cid then .ok ()
          else .error (.canisterNotInDelegationTargets cid)
      | none => .ok () := by
  rw [validate_request, if_neg hexp]
  simp only [checkScheme, hauth]
  rw [if_neg hanon]
  simp only [checkSignedScheme, hvc]
  rw [if_neg (fun h => h hderive)]
  cases hc : r.canisterId with
  | none => rw [checkTerminalSig, if_pos hterm]
  | some cid =>
      by_cases hs : s.containsId cid
      · simp only [hs, if_true, checkTerminalSig, hterm]
      · simp only [hs, if_false, Bool.false_eq_true, reduceIte]

end IngressValidator

namespace IngressValidator

theorem validate_ok_of_mem {env : Env} {r : Request} {pk : PublicKey}
    {sig : Signature} {dels : Option (List SignedDelegation)}
    (hauth : r.auth = .signed pk sig dels)
    (hexp : ¬ (r.ingressExpiry < env.now ∨
      env.now + MAX_INGRESS_TTL + PERMITTED_DRIFT_AT_VALIDATOR < r.ingressExpiry))
    (hanon : r.sender ≠ anonymousPrincipal)
    (hlen : (dels.getD []).length ≤ MAXIMUM_NUMBER_OF_DELEGATIONS)
    (hsig : checkSigs env pk (dels.getD []) = true)
    (hunexp : ∀ sd ∈ dels.getD [], env.now ≤ sd.delegation.expiration)
    (hnd : (chainKeys pk (dels.getD [])).Nodup)
    (hb : ∀ sd ∈ dels.getD [], ∀ l, sd.delegation.targets = some l →
      l.length ≤ MAXIMUM_NUMBER_OF_TARGETS)
    (hderive : env.derive pk = r.sender)
    (hterm : env.verifyRequestSig (terminalKey pk (dels.getD [])) sig r.reqId = true)
    (hmem : ∀ cid, r.canisterId = some cid →
      ∀ sd ∈ dels.getD [], ∀ l, sd.delegation.targets = some l → cid ∈ l) :
    validate_request env r = .ok () := by
  obtain ⟨s, hvc, hc⟩ := validateChain_ok hlen hsig hunexp hnd hb
  rw [validate_request_eq_scopecheck hauth hexp hanon hvc hderive hterm]
  cases hcid : r.canisterId with
  | none => rfl
  | some cid => simp only [(hc cid).mpr (hmem cid hcid), if_true]

theorem validate_notInTargets {env : Env} {r : Request} {pk : PublicKey}
    {sig : Signature} {dels : Option (List SignedDelegation)} {cid : CanisterId}
    (hauth : r.auth = .signed pk sig dels)
    (hexp : ¬ (r.ingressExpiry < env.now ∨
      env.now + MAX_INGRESS_TTL + PERMITTED_DRIFT_AT_VALIDATOR < r.ingressExpiry))
    (hanon : r.sender ≠ anonymousPrincipal)
    (hlen : (dels.getD []).length ≤ MAXIMUM_NUMBER_OF_DELEGATIONS)
    (hsig : checkSigs env pk (dels.getD []) = true)
    (hunexp : ∀ sd ∈ dels.getD [], env.now ≤ sd.delegation.expiration)
    (hnd : (chainKeys pk (dels.getD [])).Nodup)
    (hb : ∀ sd ∈ dels.getD [], ∀ l, sd.delegation.targets = some l →
      l.length ≤ MAXIMUM_NUMBER_OF_TARGETS)
    (hderive : env.derive pk = r.sender)
    (hterm : env.verifyRequestSig (terminalKey pk (dels.getD [])) sig r.reqId = true)
    (hcid : r.canisterId = some cid)
    (hmem : ¬ ∀ sd ∈ dels.getD [], ∀ l, sd.delegation.targets = some l → cid ∈ l) :
    validate_request env r = .error (.canisterNotInDelegationTargets cid) := by
  obtain ⟨s, hvc, hc⟩ := validateChain_ok hlen hsig hunexp hnd hb
  rw [validate_request_eq_scopecheck hauth hexp hanon hvc hderive hterm]
  have hfalse : ¬ s.containsId cid = true := fun h => hmem ((hc cid).mp h)
  simp only [hcid, hfalse, Bool.false_eq_true, reduceIte]

end IngressValidator

namespace IngressValidator

/-- C1: any duplicate public key anywhere in the ordered key sequence of a
delegated request whose earlier checks pass leads to rejection with
`DelegationContainsCycles` naming the first key that reoccurs. -/
theorem claim_C1_delegation_cycles (env : Env) (r : Request) (pk : PublicKey)
    (sig : Signature) (dels : Option (List SignedDelegation))
    (hauth : r.auth = .signed pk sig dels)
    (hexp : ¬ (r.ingressExpiry < env.now ∨
      env.now + MAX_INGRESS_TTL + PERMITTED_DRIFT_AT_VALIDATOR < r.ingressExpiry))
    (hanon : r.sender ≠ anonymousPrincipal)
    (hlen : (dels.getD []).length ≤ MAXIMUM_NUMBER_OF_DELEGATIONS)
    (hsig : checkSigs env pk (dels.getD []) = true)
    (hunexp : ∀ sd ∈ dels.getD [], env.now ≤ sd.delegation.expiration)
    (hdup : ¬ (chainKeys pk (dels.getD [])).Nodup) :
    ∃ k l1 l2, chainKeys pk (dels.getD []) = l1 ++ k :: l2 ∧ k ∈ l1 ∧ l1.Nodup ∧
      validate_request env r =
        .error (.invalidDelegation (.delegationContainsCycles k)) := by
  obtain ⟨k, l1, l2, heq, hk, hnd1, hvc⟩ := validateChain_cycle hlen hsig hunexp hdup
  refine ⟨k, l1, l2, heq, hk, hnd1, ?_⟩
  rw [validate_request, if_neg hexp]
  simp only [checkScheme, hauth]
  rw [if_neg hanon]
  simp only [checkSignedScheme, hvc]

theorem claim_C1_witness :
    ∃ k l1 l2,
      chainKeys 1 ((some [(⟨⟨1, 1000, none⟩, 0⟩ : SignedDelegation)]).getD [])
        = l1 ++ k :: l2 ∧ k ∈ l1 ∧ l1.Nodup ∧
      validate_request envW reqC1 =
        .error (.invalidDelegation (.delegationContainsCycles k)) :=
  claim_C1_delegation_cycles envW reqC1 1 7 (some [⟨⟨1, 1000, none⟩, 0⟩]) rfl
    (by decide) (by decide) (by decide) (by rfl) (by decide) (by decide)

/-- C2: `validate_request` returns `InvalidIngressExpiry` exactly when the
ingress expiry lies strictly outside the closed window
`[now, now + MAX_INGRESS_TTL + PERMITTED_DRIFT_AT_VALIDATOR]`, for every
request and authentication scheme. -/
theorem claim_C2_ingress_expiry (env : Env) (r : Request) :
    validate_request env r = .error .invalidIngressExpiry ↔
      (r.ingressExpiry < env.now ∨
        env.now + MAX_INGRESS_TTL + PERMITTED_DRIFT_AT_VALIDATOR < r.ingressExpiry) := by
  rw [validate_request]
  split
  · rename_i h; simp [h]
  · rename_i h
    exact ⟨fun hc => absurd hc (checkScheme_ne_invalidIngressExpiry env r),
           fun hcond => absurd hcond h⟩

theorem claim_C2_witness :
    validate_request envW ⟨.updateCall, some 42, 101, 999, .anonymous, 9⟩ =
      .error .invalidIngressExpiry :=
  (claim_C2_ingress_expiry envW ⟨.updateCall, some 42, 101, 999, .anonymous, 9⟩).mpr
    (by decide)

/-- C6: anonymous requests are accepted exactly for the anonymous
principal; a non-anonymous sender with an unsigned anonymous claim yields
`MissingSignature` naming the sender; and any signature material together
with an anonymous sender claim yields `AnonymousSignatureNotAllowed`,
before the identity check (for every attached key and chain). -/
theorem claim_C6_anonymous (env : Env) (r : Request)
    (hexp : ¬ (r.ingressExpiry < env.now ∨
      env.now + MAX_INGRESS_TTL + PERMITTED_DRIFT_AT_VALIDATOR < r.ingressExpiry)) :
    (r.auth = .anonymous →
      (validate_request env r = .ok () ↔ r.sender = anonymousPrincipal)) ∧
    (r.auth = .anonymous → r.sender ≠ anonymousPrincipal →
      validate_request env r = .error (.missingSignature r.sender)) ∧
    (∀ pk sig dels, r.auth = .signed pk sig dels → r.sender = anonymousPrincipal →
      validate_request env r = .error .anonymousSignatureNotAllowed) := by
  have hv : validate_request env r = checkScheme env r := by
    rw [validate_request, if_neg hexp]
  refine ⟨?_, ?_, ?_⟩
  · intro ha
    rw [hv]
    simp only [checkScheme, ha]
    by_cases hs : r.sender = anonymousPrincipal
    · simp [hs]
    · simp [hs]
  · intro ha hs
    rw [hv]
    simp only [checkScheme, ha]
    rw [if_neg hs]
  · intro pk sig dels ha hs
    rw [hv]
    simp only [checkScheme, ha]
    rw [if_pos hs]

theorem claim_C6_witness :
    validate_request envW reqAnon = .ok () ∧
    validate_request envW ⟨.query, some 42, 101, 1000, .anonymous, 9⟩ =
      .error (.missingSignature 101) ∧
    validate_request envW
        ⟨.readState, none, anonymousPrincipal, 1000, .signed 1 7 none, 9⟩ =
      .error .anonymousSignatureNotAllowed :=
  ⟨((claim_C6_anonymous envW reqAnon (by decide)).1 rfl).mpr rfl,
   (claim_C6_anonymous envW ⟨.query, some 42, 101, 1000, .anonymous, 9⟩
      (by decide)).2.1 rfl (by decide),
   (claim_C6_anonymous envW
      ⟨.readState, none, anonymousPrincipal, 1000, .signed 1 7 none, 9⟩
      (by decide)).2.2 1 7 none rfl rfl⟩

end IngressValidator

namespace IngressValidator

/-- C3: for a valid target-restricted chain, the request is accepted
exactly when its canister id lies in every present target list (the
intersection of all restrictions, membership being insensitive to
repeats), and otherwise rejected with `CanisterNotInDelegationTargets`
naming that id. -/
theorem claim_C3_target_intersection (env : Env) (r : Request) (pk : PublicKey)
    (sig : Signature) (dels : Option (List SignedDelegation)) (cid : CanisterId)
    (hauth : r.auth = .signed pk sig dels)
    (hexp : ¬ (r.ingressExpiry < env.now ∨
      env.now + MAX_INGRESS_TTL + PERMITTED_DRIFT_AT_VALIDATOR < r.ingressExpiry))
    (hanon : r.sender ≠ anonymousPrincipal)
    (hlen : (dels.getD []).length ≤ MAXIMUM_NUMBER_OF_DELEGATIONS)
    (hsig : checkSigs env pk (dels.getD []) = true)
    (hunexp : ∀ sd ∈ dels.getD [], env.now ≤ sd.delegation.expiration)
    (hnd : (chainKeys pk (dels.getD [])).Nodup)
    (hb : ∀ sd ∈ dels.getD [], ∀ l, sd.delegation.targets = some l →
      l.length ≤ MAXIMUM_NUMBER_OF_TARGETS)
    (hderive : env.derive pk = r.sender)
    (hterm : env.verifyRequestSig (terminalKey pk (dels.getD [])) sig r.reqId = true)
    (hcid : r.canisterId = some cid) :
    (validate_request env r = .ok () ↔
      ∀ sd ∈ dels.getD [], ∀ l, sd.delegation.targets = some l → cid ∈ l) ∧
    ((¬ ∀ sd ∈ dels.getD [], ∀ l, sd.delegation.targets = some l → cid ∈ l) →
      validate_request env r = .error (.canisterNotInDelegationTargets cid)) := by
  constructor
  · constructor
    · intro hok
      by_contra hmem
      rw [validate_notInTargets hauth hexp hanon hlen hsig hunexp hnd hb hderive
        hterm hcid hmem] at hok
      cases hok
    · intro hmem
      exact validate_ok_of_mem hauth hexp hanon hlen hsig hunexp hnd hb hderive hterm
        (fun cid' h => by rw [hcid] at h; cases h; exact hmem)
  · intro hmem
    exact validate_notInTargets hauth hexp hanon hlen hsig hunexp hnd hb hderive
      hterm hcid hmem

theorem claim_C3_witness : validate_request envW reqC3 = .ok () :=
  (claim_C3_target_intersection envW reqC3 1 7
      (some [⟨⟨2, 1000, some [41, 42, 42, 42, 43, 42]⟩, 0⟩]) 42 rfl (by decide)
      (by decide) (by decide) (by rfl) (by decide) (by decide) (by decide)
      (by rfl) (by rfl) rfl).1.mpr (by decide)

/-- C4: a delegation chain of length at most 20 whose signatures chain
correctly, whose delegations are unexpired and unrestricted, and whose
keys contain no duplicate is accepted; a chain longer than 20 is rejected
with `InvalidDelegation`; the empty chain is valid and yields the
unrestricted scope. -/
theorem claim_C4_chain_length (env : Env) (r : Request) (pk : PublicKey)
    (sig : Signature) (dels : Option (List SignedDelegation))
    (hauth : r.auth = .signed pk sig dels)
    (hexp : ¬ (r.ingressExpiry < env.now ∨
      env.now + MAX_INGRESS_TTL + PERMITTED_DRIFT_AT_VALIDATOR < r.ingressExpiry))
    (hanon : r.sender ≠ anonymousPrincipal) :
    ((dels.getD []).length ≤ MAXIMUM_NUMBER_OF_DELEGATIONS →
      checkSigs env pk (dels.getD []) = true →
      (∀ sd ∈ dels.getD [], env.now ≤ sd.delegation.expiration) →
      (chainKeys pk (dels.getD [])).Nodup →
      (∀ sd ∈ dels.getD [], sd.delegation.targets = none) →
      env.derive pk = r.sender →
      env.verifyRequestSig (terminalKey pk (dels.getD [])) sig r.reqId = true →
      validate_request env r = .ok ()) ∧
    (MAXIMUM_NUMBER_OF_DELEGATIONS < (dels.getD []).length →
      validate_request env r = .error (.invalidDelegation .chainTooLong)) ∧
    validateChain env pk [] = .ok .all := by
  refine ⟨?_, ?_, ?_⟩
  · intro hlen hsig hunexp hnd ht hderive hterm
    exact validate_ok_of_mem hauth hexp hanon hlen hsig hunexp hnd
      (fun sd hsd l hl => by rw [ht sd hsd] at hl; cases hl)
      hderive hterm
      (fun cid hc sd hsd l hl => by rw [ht sd hsd] at hl; cases hl)
  · intro hlen
    have hvc : validateChain env pk (dels.getD []) =
        .error (.invalidDelegation .chainTooLong) := by
      rw [validateChain, if_pos hlen]
    rw [validate_request, if_neg hexp]
    simp only [checkScheme, hauth]
    rw [if_neg hanon]
    simp only [checkSignedScheme, hvc]
  · rfl

theorem claim_C4_witness :
    validate_request envW reqC4 = .ok () ∧
    validate_request envW reqC4long = .error (.invalidDelegation .chainTooLong) :=
  ⟨(claim_C4_chain_length envW reqC4 1 7 (some chainC4) rfl (by decide)
      (by decide)).1 (by decide) (by rfl) (by decide) (by decide) (by decide)
      (by rfl) (by rfl),
   (claim_C4_chain_length envW reqC4long 1 7 (some chainC4long) rfl (by decide)
      (by decide)).2.1 (by decide)⟩

/-- C5 counterexample: a delegation whose `targets` list is present but
empty is not rejected with `DelegationTargetError`; the request is
rejected with `CanisterNotInDelegationTargets` naming the requested id,
as the repository's own test `should_fail_when_targets_empty` expects. -/
theorem claim_C5_counterexample :
    validate_request envW reqC5 = .error (.canisterNotInDelegationTargets 42) ∧
    validate_request envW reqC5 ≠ .error (.invalidDelegation .delegationTargetError) := by
  have h1 : validate_request envW reqC5 = .error (.canisterNotInDelegationTargets 42) := by
    rfl
  exact ⟨h1, by rw [h1]; simp⟩

/-- C5 (amended): a present `targets` list may hold at most 1000 entries
counting repeats, else the chain is rejected with `DelegationTargetError`
inside `InvalidDelegation`; an empty list is not a parse error but yields
an empty resolved scope, so a request naming any canister id is rejected
with `CanisterNotInDelegationTargets`. -/
theorem claim_C5_target_bound (env : Env) (r : Request) (pk : PublicKey)
    (sig : Signature) (dels : Option (List SignedDelegation))
    (hauth : r.auth = .signed pk sig dels)
    (hexp : ¬ (r.ingressExpiry < env.now ∨
      env.now + MAX_INGRESS_TTL + PERMITTED_DRIFT_AT_VALIDATOR < r.ingressExpiry))
    (hanon : r.sender ≠ anonymousPrincipal)
    (hlen : (dels.getD []).length ≤ MAXIMUM_NUMBER_OF_DELEGATIONS)
    (hsig : checkSigs env pk (dels.getD []) = true)
    (hunexp : ∀ sd ∈ dels.getD [], env.now ≤ sd.delegation.expiration)
    (hnd : (chainKeys pk (dels.getD [])).Nodup) :
    ((∃ sd ∈ dels.getD [], ∃ l, sd.delegation.targets = some l ∧
        MAXIMUM_NUMBER_OF_TARGETS < l.length) →
      validate_request env r = .error (.invalidDelegation .delegationTargetError)) ∧
    (∀ cid, r.canisterId = some cid →
      (∀ sd ∈ dels.getD [], ∀ l, sd.delegation.targets = some l →
        l.length ≤ MAXIMUM_NUMBER_OF_TARGETS) →
      env.derive pk = r.sender →
      env.verifyRequestSig (terminalKey pk (dels.getD [])) sig r.reqId = true →
      (∃ sd ∈ dels.getD [], sd.delegation.targets = some []) →
      validate_request env r = .error (.canisterNotInDelegationTargets cid)) := by
  constructor
  · intro hex
    have h1 : firstExpired env.now (dels.getD []) = none :=
      firstExpired_eq_none.mpr (fun sd h => not_lt.mpr (hunexp sd h))
    have h2 : findCycle [] (chainKeys pk (dels.getD [])) = none :=
      findCycle_eq_none.mpr ⟨hnd, by simp⟩
    have h3 : resolveScope .all (dels.getD []) = .error () := resolveScope_error hex
    have hvc : validateChain env pk (dels.getD []) =
        .error (.invalidDelegation .delegationTargetError) := by
      rw [validateChain, if_neg (not_lt.mpr hlen), if_pos hsig, h1, h2, h3]
    rw [validate_request, if_neg hexp]
    simp only [checkScheme, hauth]
    rw [if_neg hanon]
    simp only [checkSignedScheme, hvc]
  · rintro cid hcid hb hderive hterm ⟨sd, hsd, hempty⟩
    exact validate_notInTargets hauth hexp hanon hlen hsig hunexp hnd hb hderive
      hterm hcid
      (fun hall => absurd (hall sd hsd [] hempty) (List.not_mem_nil cid))

theorem claim_C5_witness :
    validate_request envW reqC5big = .error (.invalidDelegation .delegationTargetError) ∧
    validate_request envW reqC5 = .error (.canisterNotInDelegationTargets 42) :=
  ⟨(claim_C5_target_bound envW reqC5big 1 7
      (some [⟨⟨2, 1000, some (List.replicate 1001 0)⟩, 0⟩]) rfl (by decide)
      (by decide) (by decide) (by rfl) (by decide) (by decide)).1
      ⟨⟨⟨2, 1000, some (List.replicate 1001 0)⟩, 0⟩, List.mem_cons_self _ _,
        List.replicate 1001 0, rfl, by rw [List.length_replicate]; decide⟩,
   (claim_C5_target_bound envW reqC5 1 7 (some [⟨⟨2, 1000, some []⟩, 0⟩]) rfl
      (by decide) (by decide) (by decide) (by rfl) (by decide) (by decide)).2
      42 rfl (by decide) (by rfl) (by rfl)
      ⟨⟨⟨2, 1000, some []⟩, 0⟩, List.mem_cons_self _ _, rfl⟩⟩

/-- C7: a chain element whose expiration lies strictly before the current
time (here one nanosecond before) is rejected with
`InvalidDelegationExpiry` naming the expired timestamp, while the maximum
sentinel timestamp never expires and the request is accepted. -/
theorem claim_C7_delegation_expiry (env : Env) (r : Request) (pk : PublicKey)
    (sig : Signature) (d : Delegation) (s : Signature)
    (hauth : r.auth = .signed pk sig (some [⟨d, s⟩]))
    (hexp : ¬ (r.ingressExpiry < env.now ∨
      env.now + MAX_INGRESS_TTL + PERMITTED_DRIFT_AT_VALIDATOR < r.ingressExpiry))
    (hanon : r.sender ≠ anonymousPrincipal)
    (hsig : checkSigs env pk [⟨d, s⟩] = true) :
    (d.expiration + 1 = env.now →
      validate_request env r = .error (.invalidDelegationExpiry d.expiration)) ∧
    (d.expiration = U64_MAX → env.now ≤ U64_MAX → d.pubkey ≠ pk → d.targets = none →
      env.derive pk = r.sender →
      env.verifyRequestSig (terminalKey pk [⟨d, s⟩]) sig r.reqId = true →
      validate_request env r = .ok ()) := by
  constructor
  · intro hlt
    have hdlt : d.expiration < env.now := hlt ▸ Nat.lt_succ_self d.expiration
    have hfe : firstExpired env.now [⟨d, s⟩] = some d.expiration := by
      rw [firstExpired, if_pos hdlt]
    have hvc : validateChain env pk [⟨d, s⟩] =
        .error (.invalidDelegationExpiry d.expiration) := by
      rw [validateChain, if_neg (by simp [MAXIMUM_NUMBER_OF_DELEGATIONS]),
        if_pos hsig, hfe]
    rw [validate_request, if_neg hexp]
    simp only [checkScheme, hauth]
    rw [if_neg hanon]
    simp only [checkSignedScheme, Option.getD_some, hvc]
  · intro hmax hnow hne ht hderive hterm
    refine validate_ok_of_mem hauth hexp hanon (by simp [MAXIMUM_NUMBER_OF_DELEGATIONS])
      hsig ?_ ?_ ?_ hderive hterm ?_
    · intro sd hsd
      rw [Option.getD_some, List.mem_singleton] at hsd
      subst hsd
      show env.now ≤ d.expiration
      rw [hmax]
      exact hnow
    · simp [chainKeys, List.nodup_cons, Ne.symm hne]
    · intro sd hsd l hl
      rw [Option.getD_some, List.mem_singleton] at hsd
      subst hsd
      rw [show (⟨d, s⟩ : SignedDelegation).delegation.targets = d.targets from rfl, ht] at hl
      cases hl
    · intro cid hc sd hsd l hl
      rw [Option.getD_some, List.mem_singleton] at hsd
      subst hsd
      rw [show (⟨d, s⟩ : SignedDelegation).delegation.targets = d.targets from rfl, ht] at hl
      cases hl

theorem claim_C7_witness :
    validate_request envW
        ⟨.updateCall, some 42, 101, 1000, .signed 1 7 (some [⟨⟨2, 999, none⟩, 0⟩]), 9⟩ =
      .error (.invalidDelegationExpiry 999) ∧
    validate_request envW
        ⟨.updateCall, some 42, 101, 1000, .signed 1 7 (some [⟨⟨2, U64_MAX, none⟩, 0⟩]), 9⟩ =
      .ok () :=
  ⟨(claim_C7_delegation_expiry envW
      ⟨.updateCall, some 42, 101, 1000, .signed 1 7 (some [⟨⟨2, 999, none⟩, 0⟩]), 9⟩
      1 7 ⟨2, 999, none⟩ 0 rfl (by decide) (by decide) (by rfl)).1 (by decide),
   (claim_C7_delegation_expiry envW
      ⟨.updateCall, some 42, 101, 1000, .signed 1 7 (some [⟨⟨2, U64_MAX, none⟩, 0⟩]), 9⟩
      1 7 ⟨2, U64_MAX, none⟩ 0 rfl (by decide) (by decide) (by rfl)).2 rfl
      (by decide) (by decide) rfl (by rfl) (by rfl)⟩

end IngressValidator

namespace IngressValidator

/-- C8: the verdict of `validate_request` never depends on the request
kind: for identical authentication material the result is the same for an
update call, a query and a read-state request, and in particular a root
key whose derived principal differs from the sender is rejected with
`UserIdDoesNotMatchPublicKey` for every request kind. -/
theorem claim_C8_kind_independent (env : Env) (r : Request) :
    (∀ k1 k2 : ReqKind,
      validate_request env ⟨k1, r.canisterId, r.sender, r.ingressExpiry, r.auth, r.reqId⟩ =
      validate_request env ⟨k2, r.canisterId, r.sender, r.ingressExpiry, r.auth, r.reqId⟩) ∧
    (∀ (pk : PublicKey) (sig : Signature) (dels : Option (List SignedDelegation))
      (s : Scope) (k : ReqKind),
      r.auth = .signed pk sig dels →
      ¬ (r.ingressExpiry < env.now ∨
        env.now + MAX_INGRESS_TTL + PERMITTED_DRIFT_AT_VALIDATOR < r.ingressExpiry) →
      r.sender ≠ anonymousPrincipal →
      validateChain env pk (dels.getD []) = .ok s →
      env.derive pk ≠ r.sender →
      validate_request env ⟨k, r.canisterId, r.sender, r.ingressExpiry, r.auth, r.reqId⟩ =
        .error (.userIdDoesNotMatchPublicKey r.sender pk)) := by
  constructor
  · intro k1 k2
    rfl
  · intro pk sig dels s k hauth hexp hanon hvc hmm
    rw [validate_request]
    rw [if_neg hexp]
    simp only [checkScheme, hauth]
    rw [if_neg hanon]
    simp only [checkSignedScheme, hvc]
    rw [if_pos hmm]

theorem claim_C8_witness :
    validate_request envW ⟨.readState, none, 999, 1000, .signed 1 7 none, 9⟩ =
      .error (.userIdDoesNotMatchPublicKey 999 1) :=
  (claim_C8_kind_independent envW ⟨.updateCall, none, 999, 1000, .signed 1 7 none, 9⟩).2
    1 7 none .all .readState rfl (by decide) (by decide) (by rfl) (by decide)

end IngressValidator

namespace MessageId

/-- C9: the message id of a signed ingress request is a function of the
request content only: envelopes with equal content have equal ids whatever
their `sender_sig` and `sender_pubkey` blobs, in particular the two
envelopes of `check_request_id`. -/
theorem claim_C9_id_from_content_only (hash : HttpCanisterUpdate → Nat)
    (e1 e2 : HttpRequestEnvelope) (hc : e1.content = e2.content) :
    messageId hash e1 = messageId hash e2 ∧
    messageId hash request1 = messageId hash request2 := by
  constructor
  · rw [messageId, messageId, hc]
  · rfl

theorem claim_C9_witness :
    messageId (fun c => c.ingress_expiry + c.sender.length) request1 =
      messageId (fun c => c.ingress_expiry + c.sender.length) request2 :=
  (claim_C9_id_from_content_only (fun c => c.ingress_expiry + c.sender.length)
    request1 request2 rfl).1

end MessageId

namespace CallEndpoint

/-- C10: a parsed call message whose canister id is neither the management
canister nor the effective canister id from the URL is answered with
400 BAD_REQUEST, before signature validation or forwarding takes place. -/
theorem claim_C10_canister_id_check (ic00 : Nat) (msg : SignedIngressMsg)
    (eff : Nat) (registry : Except Nat IngressSettings)
    (validate : SignedIngressMsg → Except Nat Unit)
    (filter : SignedIngressMsg → Except Nat Unit) (send : SendResult)
    (h1 : msg.canisterId ≠ ic00) (h2 : msg.canisterId ≠ eff) :
    callService ic00 (some msg) (.ok eff) registry validate filter send =
      ⟨STATUS_BAD_REQUEST, false, false⟩ := by
  simp only [callService]
  rw [if_pos ⟨h1, h2⟩]

theorem claim_C10_witness :
    callService 0 (some ⟨5, 10⟩) (.ok 7) (.ok ⟨100⟩) (fun _ => .ok ())
      (fun _ => .ok ()) .accepted = ⟨STATUS_BAD_REQUEST, false, false⟩ :=
  claim_C10_canister_id_check 0 ⟨5, 10⟩ 7 (.ok ⟨100⟩) (fun _ => .ok ())
    (fun _ => .ok ()) .accepted (by decide) (by decide)

end CallEndpoint
